import Mathlib

/-!
Verification of the token-based session-management core of the
Backend_folderStructure repository, as a shallow embedding of
`app/user/user.dto.ts` (user service) together with the surrounding
interfaces it uses.

Modelling conventions:
  - Mongo documents are Lean structures; the `users` collection is a
    `List UserRec`, with `findOne`/`findById` returning the first match and
    `findOneAndUpdate`/`findByIdAndUpdate` updating the first match.
  - JSON Web Tokens are modelled by their decoded content (claims,
    issued-at, expiry, signing key): the JWT serialization is injective for
    a fixed key, so string equality of tokens in the code corresponds to
    structural equality of `Token` values here.
  - `process.env.JWT_SECRET` is an `Option String` in an `Env` record.
  - Thrown `Error`s become an `AuthError` sum carried in `Except`; every
    operation also returns the (possibly updated) database so that
    non-mutation on failure is expressible.
-/

namespace UserService

/-- The `role` union type of `IUser` in `user.dto.ts`: "ADMIN" | "USER". -/
inductive Role where
  | ADMIN : Role
  | USER : Role
deriving DecidableEq, Repr

/-- The sanitized public view of a user: `Omit<IUser, "password" | "refreshToken">`,
produced in the code by destructuring away `password` and `refreshToken`. -/
structure UserView where
  _id : String
  name : String
  email : String
  active : Bool
  role : Role
  imageUrl : Option String
  createdAt : Nat
  updatedAt : Nat
deriving DecidableEq

/-- A signed JWT, modelled by its decoded content.  Modelled from the spec:
each token is a signed, tamper-evident structure encoding the claim set plus
issued-at and expiry timestamps, signed with a process-wide key
(`createUserAccessTokens` lives in `passport-jwt.service.ts`, which is not
under src/). -/
structure Token where
  claims : UserView
  iat : Nat
  exp : Nat
  sig : String
deriving DecidableEq

/-- A stored user document: the `IUser` interface of `user.dto.ts`
(`name`, `email`, `active`, `role`, `password` (the bcrypt hash),
`refreshToken`, `imageUrl`) extended with the `BaseSchema` fields
(`_id`, timestamps).  `BaseSchema` itself (`common/dto/base.dto.ts`) is not
under src/; its fields are modelled from the spec data model: opaque unique
identifier plus creation/update timestamps. -/
structure UserRec where
  _id : String
  name : String
  email : String
  active : Bool
  role : Role
  password : String
  refreshToken : Option Token
  imageUrl : Option String
  createdAt : Nat
  updatedAt : Nat
deriving DecidableEq

/-- The access/refresh pair returned by `createUserAccessTokens`. -/
structure TokenPair where
  accessToken : Token
  refreshToken : Token
deriving DecidableEq

/-- Dropping `password` and `refreshToken` from a stored record:
`const { password, refreshToken, ...userWithoutPassword } = user`. -/
def sanitize (u : UserRec) : UserView :=
  { _id := u._id, name := u.name, email := u.email, active := u.active,
    role := u.role, imageUrl := u.imageUrl, createdAt := u.createdAt,
    updatedAt := u.updatedAt }

/-- The errors thrown by the session flow.  `UserNotFound`, `JwtSecretMissing`
and `InvalidRefreshToken` correspond to the `Error` messages thrown in
`user.dto.ts` ("User not found", "JWT_SECRET is not defined",
"Invalid refresh token"); `InvalidSignature` and `TokenExpired` are the
errors `jwt.verify` throws; `InvalidCredentials` is the password-mismatch
failure of the login strategy. -/
inductive AuthError where
  | UserNotFound : AuthError
  | InvalidCredentials : AuthError
  | JwtSecretMissing : AuthError
  | InvalidSignature : AuthError
  | TokenExpired : AuthError
  | InvalidRefreshToken : AuthError
deriving DecidableEq, Repr

/-- Modelled from the spec: the error-handler middleware
(`error-handler.middleware.ts`, not under src/) maps session errors to HTTP
statuses — 401 on bad credentials / not found at login, 401 on
invalid/mismatched/expired token at refresh. -/
def httpStatus : AuthError → Nat
  | .UserNotFound => 401
  | .InvalidCredentials => 401
  | .JwtSecretMissing => 500
  | .InvalidSignature => 401
  | .TokenExpired => 401
  | .InvalidRefreshToken => 401

/-- The process environment, as far as this flow reads it:
`process.env.JWT_SECRET`. -/
structure Env where
  jwtSecret : Option String
deriving DecidableEq

/-- Modelled from the spec: access-token lifetime (short: minutes-to-hours). -/
def accessTokenTtl : Nat := 3600

/-- Modelled from the spec: refresh-token lifetime (long: days). -/
def refreshTokenTtl : Nat := 604800

/-- Modelled from the spec: the Token Issuer of `passport-jwt.service.ts`
(not under src/). `issue(claims) -> {accessToken, refreshToken}`: each token
encodes the claim set plus issued-at and expiry timestamps, signed with the
process-wide key. -/
def createUserAccessTokens (key : String) (now : Nat) (claims : UserView) :
    TokenPair :=
  { accessToken := { claims := claims, iat := now, exp := now + accessTokenTtl, sig := key },
    refreshToken := { claims := claims, iat := now, exp := now + refreshTokenTtl, sig := key } }

/-- `jwt.verify(token, key)` of the jsonwebtoken library: fails with an
invalid-signature error when the token was signed with a different key, with
a token-expired error when the expiry timestamp has passed, and otherwise
returns the decoded payload. -/
def jwtVerify (key : String) (now : Nat) (t : Token) :
    Except AuthError UserView :=
  if t.sig ≠ key then .error .InvalidSignature
  else if t.exp ≤ now then .error .TokenExpired
  else .ok t.claims

/-- Modelled from the spec: the Password Hasher verify operation
(bcrypt.compare; the login strategy using it lives in
`passport-jwt.service.ts`, not under src/).  The hash internals are opaque to
this flow, so hashing is modelled as an injective tagging of the secret. -/
def verifySecret (secret hashed : String) : Bool :=
  hashed = "bcrypt$" ++ secret

/-- The users collection. -/
abbrev DB := List UserRec

/-- `UserSchema.findById(id)` / `findOne({ _id: id })`: first document whose
`_id` matches. -/
def findById : DB → String → Option UserRec
  | [], _ => none
  | u :: rest, id => if u._id = id then some u else findById rest id

/-- `findByIdAndUpdate` / `findOneAndUpdate`: apply `f` to the first document
whose `_id` matches, leave everything else unchanged. -/
def updateFirst : DB → String → (UserRec → UserRec) → DB
  | [], _, _ => []
  | u :: rest, id, f =>
      if u._id = id then f u :: rest else u :: updateFirst rest id f

/-- `getUserByEmail` of `user.dto.ts`: `UserSchema.findOne({ email }).lean()`,
returned as-is — the code comments "donot delete the password and refresh
token from this as it is used while login". -/
def getUserByEmail : DB → String → Option UserRec
  | [], _ => none
  | u :: rest, email =>
      if u.email = email then some u else getUserByEmail rest email

/-- `getUserById` of `user.dto.ts`: `findById(id).lean()`, then the
`password`/`refreshToken` fields are destructured away before returning. -/
def getUserById (db : DB) (id : String) : Option UserView :=
  match findById db id with
  | some result => some (sanitize result)
  | none => none

/-- `getAllUser` of `user.dto.ts`:
`UserSchema.find({}).select("-password -refreshToken").lean()`. -/
def getAllUser (db : DB) : List UserView :=
  db.map sanitize

/-- `getMe` of `user.dto.ts`: `findById(user._id).lean()`, then the
`password`/`refreshToken` fields are destructured away before returning. -/
def getMe (db : DB) (user : UserView) : Option UserView :=
  match findById db user._id with
  | some result => some (sanitize result)
  | none => none

/-- `loginUser` of `user.dto.ts`: look up by email; if found, mint a token
pair from the record minus `password`/`refreshToken` and persist the new
refresh token via `findByIdAndUpdate`; otherwise throw "User not found".
The signing key is read by the token issuer from the environment
(`process.env.JWT_SECRET ?? ""`); `loginUser` itself performs no key check. -/
def loginUser (env : Env) (now : Nat) (db : DB) (email : String) :
    Except AuthError TokenPair × DB :=
  match getUserByEmail db email with
  | some user =>
      let tokens := createUserAccessTokens (env.jwtSecret.getD "") now (sanitize user)
      let db2 := updateFirst db user._id
        (fun w => { w with refreshToken := some tokens.refreshToken })
      (.ok tokens, db2)
  | none => (.error .UserNotFound, db)

/-- Modelled from the spec: the full Login pipeline.  The passport local
login strategy (`passport-jwt.service.ts`, not under src/) looks the user up
by email (fails `NotFound`), verifies the submitted secret against the
stored hash (fails `InvalidCredentials` on mismatch), and only then does the
login handler run `loginUser`. -/
def loginFlow (env : Env) (now : Nat) (db : DB) (email password : String) :
    Except AuthError TokenPair × DB :=
  match getUserByEmail db email with
  | none => (.error .UserNotFound, db)
  | some user =>
      if verifySecret password user.password then loginUser env now db email
      else (.error .InvalidCredentials, db)

/-- `refreshToken` of `user.dto.ts`: read `process.env.JWT_SECRET ?? ""` and
throw "JWT_SECRET is not defined" when falsy; `jwt.verify` the presented
token; throw "Invalid refresh token" when the decoded payload has no `_id`;
`findById(decoded._id)` and throw "User not found" when absent; throw
"Invalid refresh token" when the stored `refreshToken` field differs from
the presented token; mint a new pair from the record minus
`password`/`refreshToken`, persist the new refresh token, return the pair. -/
def refreshToken (env : Env) (now : Nat) (db : DB) (rt : Token) :
    Except AuthError TokenPair × DB :=
  let jwtRefreshSecret := env.jwtSecret.getD ""
  if jwtRefreshSecret = "" then (.error .JwtSecretMissing, db)
  else
    match jwtVerify jwtRefreshSecret now rt with
    | .error e => (.error e, db)
    | .ok decoded =>
        if decoded._id = "" then (.error .InvalidRefreshToken, db)
        else
          match findById db decoded._id with
          | none => (.error .UserNotFound, db)
          | some user =>
              if user.refreshToken ≠ some rt then
                (.error .InvalidRefreshToken, db)
              else
                let tokens := createUserAccessTokens jwtRefreshSecret now (sanitize user)
                let db2 := updateFirst db user._id
                  (fun w => { w with refreshToken := some tokens.refreshToken })
                (.ok tokens, db2)

/-- `logout` of `user.dto.ts`:
`UserSchema.findByIdAndUpdate(data._id, { refreshToken: null })`. -/
def logout (db : DB) (data : UserView) : DB :=
  updateFirst db data._id (fun w => { w with refreshToken := none })

/-- A partial update object (`Partial<IUser>`) as accepted by `editUser`:
every present field overwrites the stored one (mongo update semantics). -/
structure UserPatch where
  name : Option String := none
  email : Option String := none
  active : Option Bool := none
  role : Option Role := none
  password : Option String := none
  refreshToken : Option (Option Token) := none
  imageUrl : Option (Option String) := none
deriving DecidableEq

/-- Applying a partial update to a stored document. -/
def applyPatch (u : UserRec) (d : UserPatch) : UserRec :=
  { u with
    name := d.name.getD u.name,
    email := d.email.getD u.email,
    active := d.active.getD u.active,
    role := d.role.getD u.role,
    password := d.password.getD u.password,
    refreshToken := d.refreshToken.getD u.refreshToken,
    imageUrl := d.imageUrl.getD u.imageUrl }

/-- `editUser` of `user.dto.ts`:
`UserSchema.findOneAndUpdate({ _id: id }, data).lean()` — note: no
`{ new: true }` option, so mongoose returns the PRE-update document — then
the `password`/`refreshToken` fields are destructured away from that
returned (old) document. -/
def editUser (db : DB) (id : String) (data : UserPatch) :
    Option UserView × DB :=
  match findById db id with
  | none => (none, db)
  | some result =>
      (some (sanitize result), updateFirst db id (fun w => applyPatch w data))

/-! ### Concrete demonstration values -/

/-- The sanitized view of the demo user. -/
def demoView : UserView :=
  { _id := "u1", name := "Ann", email := "a@x.com", active := true,
    role := .USER, imageUrl := none, createdAt := 0, updatedAt := 0 }

/-- The refresh token stored on the demo user (minted at t = 1). -/
def demoTok : Token :=
  { claims := demoView, iat := 1, exp := 1 + refreshTokenTtl, sig := "k" }

/-- A token with a valid signature and expiry that decodes to the demo user
but is not the currently stored refresh token. -/
def demoTok2 : Token :=
  { claims := demoView, iat := 2, exp := 2 + refreshTokenTtl, sig := "k" }

/-- A seeded user record. -/
def demoUser : UserRec :=
  { _id := "u1", name := "Ann", email := "a@x.com", active := true,
    role := .USER, password := "bcrypt$p1", refreshToken := some demoTok,
    imageUrl := none, createdAt := 0, updatedAt := 0 }

/-- A one-user collection. -/
def demoDb : DB := [demoUser]

/-- An environment with the signing key configured. -/
def demoEnv : Env := { jwtSecret := some "k" }

/-- A partial edit changing only the name. -/
def demoPatch : UserPatch := { name := some "Bob" }

/-- The pair minted for the demo user at t = 5 with key "k". -/
def demoPair : TokenPair := createUserAccessTokens "k" 5 demoView

end UserService

/-! ### Store lemmas -/

namespace UserService

/-- A record returned by the email lookup is a stored record. -/
theorem getUserByEmail_mem {db : DB} {e : String} {u : UserRec}
    (h : getUserByEmail db e = some u) : u ∈ db := by
  induction db with
  | nil => simp [getUserByEmail] at h
  | cons v rest ih =>
      by_cases hv : v.email = e
      · simp [getUserByEmail, hv] at h
        simp [h]
      · simp [getUserByEmail, hv] at h
        exact List.mem_cons_of_mem _ (ih h)

/-- A record returned by the email lookup has the looked-up email. -/
theorem getUserByEmail_email {db : DB} {e : String} {u : UserRec}
    (h : getUserByEmail db e = some u) : u.email = e := by
  induction db with
  | nil => simp [getUserByEmail] at h
  | cons v rest ih =>
      by_cases hv : v.email = e
      · simp [getUserByEmail, hv] at h
        rw [← h]; exact hv
      · simp [getUserByEmail, hv] at h
        exact ih h

/-- A record returned by the id lookup has the looked-up id. -/
theorem findById_id {db : DB} {id : String} {u : UserRec}
    (h : findById db id = some u) : u._id = id := by
  induction db with
  | nil => simp [findById] at h
  | cons v rest ih =>
      by_cases hv : v._id = id
      · simp [findById, hv] at h
        rw [← h]; exact hv
      · simp [findById, hv] at h
        exact ih h

/-- If some stored record has the given id, the id lookup succeeds. -/
theorem findById_isSome {db : DB} {u : UserRec} (hm : u ∈ db) :
    ∃ w, findById db u._id = some w := by
  induction db with
  | nil => simp at hm
  | cons v rest ih =>
      by_cases hv : v._id = u._id
      · exact ⟨v, by simp [findById, hv]⟩
      · rcases List.mem_cons.mp hm with h | h
        · exact absurd (h ▸ rfl) hv
        · rcases ih h with ⟨w, hw⟩
          exact ⟨w, by simp [findById, hv, hw]⟩

/-- Updating the first record with a given id does not disturb what the id
lookup sees, provided the update preserves the id field. -/
theorem findById_updateFirst {db : DB} {id : String} {f : UserRec → UserRec}
    (hf : ∀ w, (f w)._id = w._id) :
    findById (updateFirst db id f) id = (findById db id).map f := by
  induction db with
  | nil => simp [findById, updateFirst]
  | cons v rest ih =>
      by_cases hv : v._id = id
      · simp [findById, updateFirst, hv, hf v]
      · simp [findById, updateFirst, hv, ih]

/-- Looking up a different id is unaffected by an id-preserving update. -/
theorem findById_updateFirst_ne {db : DB} {id id2 : String}
    {f : UserRec → UserRec} (hf : ∀ w, (f w)._id = w._id) (hne : id2 ≠ id) :
    findById (updateFirst db id f) id2 = findById db id2 := by
  induction db with
  | nil => simp [findById, updateFirst]
  | cons v rest ih =>
      by_cases hv : v._id = id
      · have h1 : ¬(f v)._id = id2 := by
          rw [hf v, hv]; exact fun h => hne h.symm
        have h2 : ¬v._id = id2 := by
          rw [hv]; exact fun h => hne h.symm
        have h3 : ¬id = id2 := fun h => hne h.symm
        simp [findById, updateFirst, hv, h1, h2, h3]
      · simp [findById, updateFirst, hv, ih]

/-- Specialization of `findById_updateFirst` to a refresh-token write. -/
theorem findById_setRefresh (db : DB) (id : String) (t : Option Token) :
    findById (updateFirst db id (fun w => { w with refreshToken := t })) id =
    (findById db id).map (fun w => { w with refreshToken := t }) :=
  findById_updateFirst (fun _ => rfl)

/-- Specialization of `findById_updateFirst` to a partial update. -/
theorem findById_applyPatch (db : DB) (id : String) (d : UserPatch) :
    findById (updateFirst db id (fun w => applyPatch w d)) id =
    (findById db id).map (fun w => applyPatch w d) :=
  findById_updateFirst (fun _ => rfl)

/-- `updateFirst` rewrites the collection at exactly the index of the first
record carrying the id, and leaves every other entry untouched: it is a
`List.set` at that index. -/
theorem updateFirst_eq_set {db : DB} {id : String} {u0 : UserRec}
    (f : UserRec → UserRec) (h : findById db id = some u0) :
    ∃ j, ∃ hj : j < db.length,
      db.get ⟨j, hj⟩ = u0 ∧ u0._id = id ∧
      updateFirst db id f = db.set j (f u0) := by
  induction db with
  | nil => simp [findById] at h
  | cons v rest ih =>
      by_cases hv : v._id = id
      · simp [findById, hv] at h
        subst h
        exact ⟨0, by simp, rfl, hv, by simp [updateFirst, hv]⟩
      · simp [findById, hv] at h
        rcases ih h with ⟨j, hj, hg, hid, hset⟩
        refine ⟨j + 1, by simpa using Nat.succ_lt_succ hj, by simpa using hg,
          hid, ?_⟩
        simp [updateFirst, hv, hset]

/-- Updating a first match that the update leaves unchanged is a no-op. -/
theorem updateFirst_fix {db : DB} {id : String} {u0 : UserRec}
    {f : UserRec → UserRec} (h : findById db id = some u0) (hfix : f u0 = u0) :
    updateFirst db id f = db := by
  induction db with
  | nil => rfl
  | cons v rest ih =>
      by_cases hv : v._id = id
      · simp [findById, hv] at h
        subst h
        simp [updateFirst, hv, hfix]
      · simp [findById, hv] at h
        simp [updateFirst, hv, ih h]

/-- Updating when no record carries the id is a no-op. -/
theorem updateFirst_none {db : DB} {id : String} {f : UserRec → UserRec}
    (h : findById db id = none) : updateFirst db id f = db := by
  induction db with
  | nil => rfl
  | cons v rest ih =>
      by_cases hv : v._id = id
      · simp [findById, hv] at h
      · simp [findById, hv] at h
        simp [updateFirst, hv, ih h]

/-- The sanitized view is oblivious to the secret fields: overwriting
`password` and `refreshToken` does not change it. -/
theorem sanitize_oblivious (u : UserRec) (p : String) (r : Option Token) :
    sanitize { u with password := p, refreshToken := r } = sanitize u := rfl

end UserService

/-! ### Run and inversion lemmas for the session operations -/

namespace UserService

/-- `jwt.verify` succeeds exactly on a matching signature and an unexpired
token, and returns the token claims. -/
theorem jwtVerify_ok {key : String} {now : Nat} {t : Token} {c : UserView}
    (h : jwtVerify key now t = .ok c) :
    t.sig = key ∧ now < t.exp ∧ c = t.claims := by
  unfold jwtVerify at h
  by_cases h1 : t.sig ≠ key
  · rw [if_pos h1] at h; simp at h
  · rw [if_neg h1] at h
    by_cases h2 : t.exp ≤ now
    · rw [if_pos h2] at h; simp at h
    · rw [if_neg h2] at h
      injection h with h
      exact ⟨not_not.mp h1, Nat.not_le.mp h2, h.symm⟩

/-- Running `refreshToken` when every check passes. -/
theorem refreshToken_run {env : Env} {db : DB} {rt : Token}
    {key : String} {user : UserRec} (now : Nat)
    (hkey : env.jwtSecret = some key) (hk : key ≠ "")
    (hsig : rt.sig = key) (hexp : now < rt.exp) (hid : rt.claims._id ≠ "")
    (hfind : findById db rt.claims._id = some user)
    (hstored : user.refreshToken = some rt) :
    refreshToken env now db rt =
      (.ok (createUserAccessTokens key now (sanitize user)),
       updateFirst db user._id (fun w =>
         { w with refreshToken := some (createUserAccessTokens key now (sanitize user)).refreshToken })) := by
  have e1 : ¬rt.sig ≠ key := not_not.mpr hsig
  have e2 : ¬rt.exp ≤ now := Nat.not_le.mpr hexp
  have e3 : ¬user.refreshToken ≠ some rt := not_not.mpr hstored
  simp only [refreshToken, jwtVerify, hkey, Option.getD_some, if_neg hk,
    if_neg e1, if_neg e2, if_neg hid, hfind, if_neg e3]

/-- Running `refreshToken` when the presented token differs from the stored
refresh-token field but every earlier check passes. -/
theorem refreshToken_mismatch {env : Env} {db : DB} {rt : Token}
    {key : String} {user : UserRec} (now : Nat)
    (hkey : env.jwtSecret = some key) (hk : key ≠ "")
    (hsig : rt.sig = key) (hexp : now < rt.exp) (hid : rt.claims._id ≠ "")
    (hfind : findById db rt.claims._id = some user)
    (hmis : user.refreshToken ≠ some rt) :
    refreshToken env now db rt = (.error .InvalidRefreshToken, db) := by
  have e1 : ¬rt.sig ≠ key := not_not.mpr hsig
  have e2 : ¬rt.exp ≤ now := Nat.not_le.mpr hexp
  simp only [refreshToken, jwtVerify, hkey, Option.getD_some, if_neg hk,
    if_neg e1, if_neg e2, if_neg hid, hfind, if_pos hmis]

/-- Inversion: what a successful login implies. -/
theorem loginFlow_ok_inv {env : Env} {now : Nat} {db : DB}
    {email pw : String} {tp : TokenPair} {db2 : DB}
    (h : loginFlow env now db email pw = (.ok tp, db2)) :
    ∃ u, getUserByEmail db email = some u ∧
      verifySecret pw u.password = true ∧
      tp = createUserAccessTokens (env.jwtSecret.getD "") now (sanitize u) ∧
      db2 = updateFirst db u._id
        (fun w => { w with refreshToken := some tp.refreshToken }) := by
  cases hu : getUserByEmail db email with
  | none => simp only [loginFlow, hu] at h; simp at h
  | some u =>
      by_cases hpw : verifySecret pw u.password = true
      · simp only [loginFlow, loginUser, hu, if_pos hpw, Prod.mk.injEq,
          Except.ok.injEq] at h
        obtain ⟨htp, hdb⟩ := h
        subst htp
        subst hdb
        exact ⟨u, rfl, hpw, rfl, rfl⟩
      · simp only [loginFlow, hu, if_neg hpw] at h; simp at h

/-- Inversion: what a successful refresh implies. -/
theorem refreshToken_ok_inv {env : Env} {now : Nat} {db : DB} {rt : Token}
    {tp : TokenPair} {db2 : DB}
    (h : refreshToken env now db rt = (.ok tp, db2)) :
    env.jwtSecret.getD "" ≠ "" ∧ rt.sig = env.jwtSecret.getD "" ∧
    now < rt.exp ∧ rt.claims._id ≠ "" ∧
    ∃ user, findById db rt.claims._id = some user ∧
      user.refreshToken = some rt ∧
      tp = createUserAccessTokens (env.jwtSecret.getD "") now (sanitize user) ∧
      db2 = updateFirst db user._id
        (fun w => { w with refreshToken := some tp.refreshToken }) := by
  unfold refreshToken at h
  by_cases hk : env.jwtSecret.getD "" = ""
  · rw [if_pos hk] at h; simp at h
  · rw [if_neg hk] at h
    cases hv : jwtVerify (env.jwtSecret.getD "") now rt with
    | error e => simp only [hv] at h; simp at h
    | ok decoded =>
        obtain ⟨hsig, hexp, hdec⟩ := jwtVerify_ok hv
        subst hdec
        simp only [hv] at h
        by_cases hid : rt.claims._id = ""
        · simp only [if_pos hid] at h; simp at h
        · simp only [if_neg hid] at h
          cases hfind : findById db rt.claims._id with
          | none => simp only [hfind] at h; simp at h
          | some user =>
              simp only [hfind] at h
              by_cases hmis : user.refreshToken ≠ some rt
              · simp only [if_pos hmis] at h; simp at h
              · simp only [if_neg hmis] at h
                simp only [Prod.mk.injEq, Except.ok.injEq] at h
                obtain ⟨htp, hdb⟩ := h
                subst htp
                subst hdb
                exact ⟨hk, hsig, hexp, hid,
                  user, rfl, not_not.mp hmis, rfl, rfl⟩

end UserService

/-! ### Claim theorems -/

namespace UserService

/-- C1: Login verifies the submitted password against the stored hashed
secret: on mismatch it fails with `InvalidCredentials` (mapped to HTTP 401)
and leaves the store — in particular the stored refresh-token field —
unchanged; a token pair is returned only when the password verifies. -/
theorem login_wrong_password_rejected :
    (∀ env now db email pw u, getUserByEmail db email = some u →
       verifySecret pw u.password = false →
       loginFlow env now db email pw = (.error .InvalidCredentials, db)) ∧
    httpStatus .InvalidCredentials = 401 ∧
    (∀ env now db email pw tp db2,
       loginFlow env now db email pw = (.ok tp, db2) →
       ∃ u, getUserByEmail db email = some u ∧
         verifySecret pw u.password = true) := by
  refine ⟨?_, rfl, ?_⟩
  · intro env now db email pw u hu hpw
    have hne : ¬verifySecret pw u.password = true := by simp [hpw]
    simp only [loginFlow, hu, if_neg hne]
  · intro env now db email pw tp db2 h
    obtain ⟨u, hu, hpw, _, _⟩ := loginFlow_ok_inv h
    exact ⟨u, hu, hpw⟩

/-- C1 witness: a wrong password against the seeded user is rejected with
`InvalidCredentials` and the collection is untouched. -/
theorem login_wrong_password_rejected_wit :
    loginFlow demoEnv 5 demoDb "a@x.com" "wrong" =
      (.error .InvalidCredentials, demoDb) :=
  login_wrong_password_rejected.1 demoEnv 5 demoDb "a@x.com" "wrong" demoUser
    (by decide) (by decide)

/-- C2 counterexample: `getUserByEmail` returns the stored record verbatim —
hashed secret and refresh-token field included — so not every read accessor
strips these fields from the records it returns. -/
theorem getUserByEmail_returns_secrets :
    getUserByEmail demoDb "a@x.com" = some demoUser ∧
    demoUser.password = "bcrypt$p1" ∧
    demoUser.refreshToken = some demoTok :=
  ⟨by decide, rfl, rfl⟩

/-- C2 (amended): `getUserById`, `getAllUser` and `getMe` strip the hashed
secret and refresh-token fields from every record they return (the
sanitized view is oblivious to both fields), while `getUserByEmail` returns
a stored record itself, with both fields intact. -/
theorem read_accessors_sanitized :
    (∀ db id, getUserById db id = (findById db id).map sanitize) ∧
    (∀ db, getAllUser db = db.map sanitize) ∧
    (∀ db v, getMe db v = (findById db v._id).map sanitize) ∧
    (∀ u (p : String) (r : Option Token),
       sanitize { u with password := p, refreshToken := r } = sanitize u) ∧
    (∀ db e u, getUserByEmail db e = some u → u ∈ db ∧ u.email = e) := by
  refine ⟨?_, ?_, ?_, ?_, ?_⟩
  · intro db id; unfold getUserById; cases findById db id <;> rfl
  · intro db; rfl
  · intro db v; unfold getMe; cases findById db v._id <;> rfl
  · intro u p r; rfl
  · intro db e u h; exact ⟨getUserByEmail_mem h, getUserByEmail_email h⟩

/-- C2 (amended) witness: the record handed back by the email accessor is a
stored record with the looked-up email. -/
theorem read_accessors_sanitized_wit :
    demoUser ∈ demoDb ∧ demoUser.email = "a@x.com" :=
  read_accessors_sanitized.2.2.2.2 demoDb "a@x.com" demoUser (by decide)

/-- C3: Refresh presenting a token different from the stored refresh-token
field fails with the invalid-token error and leaves the store unchanged,
even when the presented token has a valid signature and is unexpired. -/
theorem refresh_mismatched_token_rejected
    {env : Env} {db : DB} {rt : Token} {key : String} {user : UserRec}
    (now : Nat)
    (hkey : env.jwtSecret = some key) (hk : key ≠ "")
    (hsig : rt.sig = key) (hexp : now < rt.exp) (hid : rt.claims._id ≠ "")
    (hfind : findById db rt.claims._id = some user)
    (hmis : user.refreshToken ≠ some rt) :
    refreshToken env now db rt = (.error .InvalidRefreshToken, db) :=
  refreshToken_mismatch now hkey hk hsig hexp hid hfind hmis

/-- C3 witness: a freshly-signed, unexpired token for the seeded user that is
not the stored one is rejected and the collection is untouched. -/
theorem refresh_mismatched_token_rejected_wit :
    refreshToken demoEnv 4 demoDb demoTok2 =
      (.error .InvalidRefreshToken, demoDb) :=
  @refresh_mismatched_token_rejected demoEnv demoDb demoTok2 "k" demoUser 4
    rfl (by decide) rfl (by decide) (by decide) (by decide) (by decide)

/-- C9 counterexample: with JWT_SECRET absent from the environment, the
Refresh operation itself detects the missing signing key at request time and
fails with the missing-key error — a per-request operation does check for a
missing signing key. -/
theorem refresh_key_checked_at_request_time :
    refreshToken { jwtSecret := none } 2 demoDb demoTok =
      (.error .JwtSecretMissing, demoDb) := rfl

/-- C9 (amended): `refreshToken` reads JWT_SECRET on every call: whenever the
variable is absent or empty, the request itself fails with the missing-key
error ("JWT_SECRET is not defined") and the store is left unchanged — the
missing-key check happens per request. -/
theorem refresh_fails_on_missing_key (env : Env) (now : Nat) (db : DB)
    (rt : Token) (h : env.jwtSecret = none ∨ env.jwtSecret = some "") :
    refreshToken env now db rt = (.error .JwtSecretMissing, db) := by
  rcases h with h | h <;> simp [refreshToken, h]

/-- C9 (amended) witness. -/
theorem refresh_fails_on_missing_key_wit :
    refreshToken { jwtSecret := none } 7 demoDb demoTok =
      (.error .JwtSecretMissing, demoDb) :=
  refresh_fails_on_missing_key { jwtSecret := none } 7 demoDb demoTok
    (Or.inl rfl)

end UserService

namespace UserService

/-- C5: after a successful Login the stored refresh-token field of the user
record equals the refresh token returned to the client. -/
theorem login_persists_refresh_token
    {env : Env} {now : Nat} {db : DB} {email pw : String} {u : UserRec}
    (hu : getUserByEmail db email = some u)
    (hpw : verifySecret pw u.password = true) :
    ∃ tp db2 w, loginFlow env now db email pw = (.ok tp, db2) ∧
      findById db2 u._id = some w ∧
      w.refreshToken = some tp.refreshToken := by
  have hmem := getUserByEmail_mem hu
  obtain ⟨w0, hw0⟩ := findById_isSome hmem
  refine ⟨createUserAccessTokens (env.jwtSecret.getD "") now (sanitize u),
    updateFirst db u._id (fun w => { w with refreshToken := some (createUserAccessTokens (env.jwtSecret.getD "") now (sanitize u)).refreshToken }),
    { w0 with refreshToken := some (createUserAccessTokens (env.jwtSecret.getD "") now (sanitize u)).refreshToken },
    ?_, ?_, rfl⟩
  · simp only [loginFlow, loginUser, hu, if_pos hpw]
  · rw [findById_setRefresh, hw0]
    rfl

/-- C5 witness: logging the seeded user in stores exactly the returned
refresh token. -/
theorem login_persists_refresh_token_wit :
    ∃ tp db2 w, loginFlow demoEnv 5 demoDb "a@x.com" "p1" = (.ok tp, db2) ∧
      findById db2 demoUser._id = some w ∧
      w.refreshToken = some tp.refreshToken :=
  @login_persists_refresh_token demoEnv 5 demoDb "a@x.com" "p1" demoUser
    (by decide) (by decide)

/-- C4 counterexample: refreshing at the very instant the submitted token
was minted (here t = 1, the issued-at timestamp of the stored token) is a
successful Refresh whose returned refresh token EQUALS the one submitted —
the re-minted token has the same claims, issued-at, expiry and key — and a
subsequent Refresh presenting that "old" token still succeeds.  So not every
successful Refresh rotates the token. -/
theorem refresh_same_instant_returns_same_token :
    (refreshToken demoEnv 1 demoDb demoTok).1 =
      .ok (createUserAccessTokens "k" 1 demoView) ∧
    (createUserAccessTokens "k" 1 demoView).refreshToken = demoTok ∧
    (refreshToken demoEnv 1
        (refreshToken demoEnv 1 demoDb demoTok).2 demoTok).1 =
      .ok (createUserAccessTokens "k" 1 demoView) :=
  ⟨rfl, rfl, rfl⟩

/-- C4 (amended): a successful Refresh at any instant other than the one at
which the submitted token was minted returns a refresh token differing from
the one submitted, stores the newly returned refresh token on the record,
and any subsequent Refresh presenting the old token fails.  (At the exact
issuance instant the issuer re-mints the identical token, so rotation does
not occur there.) -/
theorem refresh_rotates_token
    {env : Env} {db : DB} {rt : Token} {key : String} {user : UserRec}
    (now : Nat)
    (hkey : env.jwtSecret = some key) (hk : key ≠ "")
    (hsig : rt.sig = key) (hexp : now < rt.exp) (hid : rt.claims._id ≠ "")
    (hfind : findById db rt.claims._id = some user)
    (hstored : user.refreshToken = some rt)
    (hiat : rt.iat ≠ now) :
    ∃ tp db2, refreshToken env now db rt = (.ok tp, db2) ∧
      tp.refreshToken ≠ rt ∧
      findById db2 rt.claims._id =
        some { user with refreshToken := some tp.refreshToken } ∧
      ∀ now2 tp2 db3, refreshToken env now2 db2 rt ≠ (.ok tp2, db3) := by
  have hid2 : user._id = rt.claims._id := findById_id hfind
  have hfind3 : findById db user._id = some user := by
    rw [hid2]; exact hfind
  have hrun := refreshToken_run now hkey hk hsig hexp hid hfind hstored
  have hfound : findById
      (updateFirst db user._id (fun w => { w with refreshToken := some (createUserAccessTokens key now (sanitize user)).refreshToken }))
      rt.claims._id =
      some { user with refreshToken := some (createUserAccessTokens key now (sanitize user)).refreshToken } := by
    rw [← hid2, findById_setRefresh, hfind3]
    rfl
  refine ⟨createUserAccessTokens key now (sanitize user),
    updateFirst db user._id (fun w => { w with refreshToken := some (createUserAccessTokens key now (sanitize user)).refreshToken }),
    hrun, ?_, hfound, ?_⟩
  · intro he
    exact hiat ((congrArg Token.iat he).symm)
  · intro now2 tp2 db3 hcon
    obtain ⟨-, -, -, -, user2, hfind2, hstored2, -, -⟩ :=
      refreshToken_ok_inv hcon
    rw [hfound] at hfind2
    injection hfind2 with hfind2
    rw [← hfind2] at hstored2
    simp only at hstored2
    injection hstored2 with hstored2
    exact hiat ((congrArg Token.iat hstored2).symm)

/-- C4 witness: refreshing the seeded user at t = 2 with the stored token
(minted at t = 1) rotates it. -/
theorem refresh_rotates_token_wit :
    ∃ tp db2, refreshToken demoEnv 2 demoDb demoTok = (.ok tp, db2) ∧
      tp.refreshToken ≠ demoTok ∧
      findById db2 demoTok.claims._id =
        some { demoUser with refreshToken := some tp.refreshToken } ∧
      ∀ now2 tp2 db3, refreshToken demoEnv now2 db2 demoTok ≠ (.ok tp2, db3) :=
  @refresh_rotates_token demoEnv demoDb demoTok "k" demoUser 2 rfl (by decide)
    rfl (by decide) (by decide) (by decide) rfl (by decide)

/-- C6: Logout nulls the stored refresh-token field; it is idempotent and a
no-op on a record whose field is already null; after Logout, a Refresh
presenting the last-known token fails with the invalid-token error. -/
theorem logout_clears_refresh_token :
    (∀ db v u, findById db v._id = some u →
       findById (logout db v) v._id = some { u with refreshToken := none }) ∧
    (∀ db v, logout (logout db v) v = logout db v) ∧
    (∀ db v u, findById db v._id = some u → u.refreshToken = none →
       logout db v = db) ∧
    (∀ env now db v rt key u, env.jwtSecret = some key → key ≠ "" →
       rt.sig = key → now < rt.exp → rt.claims._id = v._id → v._id ≠ "" →
       findById db v._id = some u →
       refreshToken env now (logout db v) rt =
         (.error .InvalidRefreshToken, logout db v)) := by
  have hnull : ∀ db v u, findById db v._id = some u →
      findById (logout db v) v._id = some { u with refreshToken := none } := by
    intro db v u h
    unfold logout
    rw [findById_setRefresh, h]
    rfl
  refine ⟨hnull, ?_, ?_, ?_⟩
  · intro db v
    cases h : findById db v._id with
    | none =>
        unfold logout
        rw [updateFirst_none h, updateFirst_none h]
    | some u =>
        have h2 := hnull db v u h
        unfold logout at h2 ⊢
        exact updateFirst_fix h2 rfl
  · intro db v u h hr
    unfold logout
    refine updateFirst_fix h ?_
    rw [← hr]
  · intro env now db v rt key u hkey hk hsig hexp hcl hid hfindu
    have hfind2 : findById (logout db v) rt.claims._id =
        some { u with refreshToken := none } := by
      rw [hcl]; exact hnull db v u hfindu
    refine refreshToken_mismatch now hkey hk hsig hexp ?_ hfind2 ?_
    · rw [hcl]; exact hid
    · simp

/-- C6 witness: logging the seeded user out nulls the stored field. -/
theorem logout_clears_refresh_token_wit :
    findById (logout demoDb demoView) demoView._id =
      some { demoUser with refreshToken := none } :=
  logout_clears_refresh_token.1 demoDb demoView demoUser (by decide)

/-- C7: a successful Login or Refresh rewrites the collection at exactly one
record — the first one carrying the target id — replacing only its
refresh-token field; every other record, and every other field of the
touched record, is unchanged. -/
theorem session_ops_touch_only_refresh_field :
    (∀ env now db email pw tp db2,
       loginFlow env now db email pw = (.ok tp, db2) →
       ∃ j, ∃ hj : j < db.length,
         db2 = db.set j { db.get ⟨j, hj⟩ with refreshToken := some tp.refreshToken }) ∧
    (∀ env now db rt tp db2,
       refreshToken env now db rt = (.ok tp, db2) →
       ∃ j, ∃ hj : j < db.length,
         db2 = db.set j { db.get ⟨j, hj⟩ with refreshToken := some tp.refreshToken }) := by
  constructor
  · intro env now db email pw tp db2 h
    obtain ⟨u, hu, hpw, htp, hdb⟩ := loginFlow_ok_inv h
    obtain ⟨w0, hw0⟩ := findById_isSome (getUserByEmail_mem hu)
    obtain ⟨j, hj, hget, hid0, hset⟩ := updateFirst_eq_set _ hw0
    refine ⟨j, hj, ?_⟩
    rw [hdb, hset, hget]
  · intro env now db rt tp db2 h
    obtain ⟨-, -, -, -, user, hfind, hstored, htp, hdb⟩ :=
      refreshToken_ok_inv h
    have hfind3 : findById db user._id = some user := by
      rw [findById_id hfind]; exact hfind
    obtain ⟨j, hj, hget, hid0, hset⟩ := updateFirst_eq_set _ hfind3
    refine ⟨j, hj, ?_⟩
    rw [hdb, hset, hget]

/-- C7 witness: the successful demo login rewrites the one-record collection
as a single `List.set` changing only the refresh-token field. -/
theorem session_ops_touch_only_refresh_field_wit :
    ∃ j, ∃ hj : j < demoDb.length,
      [{ demoUser with refreshToken := some demoPair.refreshToken }] =
        demoDb.set j { demoDb.get ⟨j, hj⟩ with refreshToken := some demoPair.refreshToken } :=
  session_ops_touch_only_refresh_field.1 demoEnv 5 demoDb "a@x.com" "p1"
    demoPair [{ demoUser with refreshToken := some demoPair.refreshToken }] rfl

/-- C8: the claim set of both tokens minted by Login, and of both tokens
minted by Refresh, is the stored user record with the hashed secret and the
refresh-token field omitted (and the sanitized projection is oblivious to
the two omitted fields). -/
theorem token_claims_omit_secrets :
    (∀ env now db email pw tp db2 u, getUserByEmail db email = some u →
       loginFlow env now db email pw = (.ok tp, db2) →
       tp.accessToken.claims = sanitize u ∧
       tp.refreshToken.claims = sanitize u) ∧
    (∀ env now db rt tp db2 user, findById db rt.claims._id = some user →
       refreshToken env now db rt = (.ok tp, db2) →
       tp.accessToken.claims = sanitize user ∧
       tp.refreshToken.claims = sanitize user) ∧
    (∀ u (p : String) (r : Option Token),
       sanitize { u with password := p, refreshToken := r } = sanitize u) := by
  refine ⟨?_, ?_, fun u p r => rfl⟩
  · intro env now db email pw tp db2 u hu h
    obtain ⟨u2, hu2, -, htp, -⟩ := loginFlow_ok_inv h
    rw [hu] at hu2
    injection hu2 with hu2
    subst hu2
    subst htp
    exact ⟨rfl, rfl⟩
  · intro env now db rt tp db2 user hfind h
    obtain ⟨-, -, -, -, user2, hfind2, -, htp, -⟩ := refreshToken_ok_inv h
    rw [hfind] at hfind2
    injection hfind2 with hfind2
    subst hfind2
    subst htp
    exact ⟨rfl, rfl⟩

/-- C8 witness: the pair minted by the demo login carries the sanitized
claim set of the seeded record. -/
theorem token_claims_omit_secrets_wit :
    demoPair.accessToken.claims = sanitize demoUser ∧
    demoPair.refreshToken.claims = sanitize demoUser :=
  token_claims_omit_secrets.1 demoEnv 5 demoDb "a@x.com" "p1" demoPair
    [{ demoUser with refreshToken := some demoPair.refreshToken }] demoUser
    (by decide) rfl

/-- C10: `editUser` applies the partial update to the stored record, but
returns the sanitized PRE-update record: the returned fields are the values
from before the edit, while the store holds the post-update values. -/
theorem editUser_returns_pre_update
    {db : DB} {id : String} {d : UserPatch} {u0 : UserRec}
    (h : findById db id = some u0) :
    (editUser db id d).1 = some (sanitize u0) ∧
    findById (editUser db id d).2 id = some (applyPatch u0 d) := by
  simp only [editUser, h]
  refine ⟨trivial, ?_⟩
  rw [findById_applyPatch, h]
  rfl

/-- C10 witness: editing the seeded user returns the old name while the
store holds the new one. -/
theorem editUser_returns_pre_update_wit :
    (editUser demoDb "u1" demoPatch).1 = some (sanitize demoUser) ∧
    findById (editUser demoDb "u1" demoPatch).2 "u1" =
      some (applyPatch demoUser demoPatch) :=
  @editUser_returns_pre_update demoDb "u1" demoPatch demoUser (by decide)

end UserService
